import Mathlib

/-!
Shallow embedding of the Lesson Planner backend (`app.py`), a Flask service
with a home route, a CORS preflight route and a `/generate` route that
extracts text from an uploaded PDF, sends a prompt to a chat-completion
endpoint and renders the reply as a DOCX document.  Text is modelled as
`List Char`; Python string methods are embedded as explicit functions.
-/

abbrev Str := List Char

/-- Python `str.strip()`: drop whitespace from both ends. -/
def pyStrip (l : Str) : Str :=
  ((l.dropWhile Char.isWhitespace).reverse.dropWhile Char.isWhitespace).reverse

/-- Python `str.strip(cs)` with an explicit character set. -/
def pyStripChars (cs : List Char) (l : Str) : Str :=
  ((l.dropWhile (· ∈ cs)).reverse.dropWhile (· ∈ cs)).reverse

/-- Python `str.lower()`. -/
def pyLower (l : Str) : Str := l.map Char.toLower

/-- Python `str.upper()`. -/
def pyUpper (l : Str) : Str := l.map Char.toUpper

/-- Python `str.replace(c, "")` for a one-character pattern: remove every occurrence. -/
def removeAllChar (c : Char) (l : Str) : Str := l.filter (fun d => d ≠ c)

/-- Python `str.split(sep)` for a one-character separator (`"".split` gives `[""]`). -/
def splitOnChar (sep : Char) : Str → List Str
  | [] => [[]]
  | c :: rest =>
    if c = sep then [] :: splitOnChar sep rest
    else
      match splitOnChar sep rest with
      | [] => [[c]]
      | h :: t => (c :: h) :: t

/-- Python `"\n".join(parts)`. -/
def joinNL : List Str → Str
  | [] => []
  | l :: rest =>
    match rest with
    | [] => l
    | _ :: _ => l ++ '\n' :: joinNL rest

/-- Python `needle in hay`: substring containment. -/
def containsSub (needle : Str) : Str → Bool
  | [] => needle.isEmpty
  | c :: rest => needle.isPrefixOf (c :: rest) || containsSub needle rest

/-- Python `str.endswith(suffix)`. -/
def endsWithStr (suffix l : Str) : Bool := suffix.isSuffixOf l

/-- Lookup in an association list of strings, modelling dict/form access. -/
def lookupStr : List (Str × Str) → Str → Option Str
  | [], _ => none
  | (k, v) :: rest, key => if k = key then some v else lookupStr rest key

/-- Python `form.get(key, default)` (line 202-207 of app.py). -/
def formGet (form : List (Str × Str)) (key df : Str) : Str :=
  (lookupStr form key).getD df

/-- String literal constants used by the service. -/
def pdfSuffix : Str := ".pdf".data

def sErrorKey : Str := "error".data

def sNoFileMsg : Str := "No file uploaded".data

def sNoTextMsg : Str := "Could not extract text from PDF".data

def sMessageKey : Str := "message".data

def sHomeMsg : Str := "Lesson Planner API is running".data

def sDlName : Str := "BAE_Lesson_Plan.docx".data

def sEnvKey : Str := "OPENAI_API_KEY".data

def sTeacherKey : Str := "teacher_name".data

def sLessonNumKey : Str := "lesson_number".data

def sLessonDurKey : Str := "lesson_duration".data

def sProfileKey : Str := "learner_profile".data

def sProblemsKey : Str := "anticipated_problems".data

def sRatingKey : Str := "target_rating".data

def sNA : Str := "N/A".data

def sGood : Str := "Good".data

/-- Fragments of the f-string `user_prompt` (lines 211-222 of app.py). -/
def pfTeacher : Str := "\nTeacher Name: ".data

def pfLessonNum : Str := "\nLesson Number: ".data

def pfLessonDur : Str := "\nLesson Duration: ".data

def pfProfile : Str := "\nLearner Profile: ".data

def pfProblems : Str := "\nAnticipated Problems: ".data

def pfRating : Str := "\nTarget Rating: ".data

def pfTimestamp : Str := "\nTimestamp: ".data

def pfContent : Str := "\n\nExtracted Lesson Content:\n".data

def pfNL : Str := "\n".data

/-- Uploaded file: a name and, for PDFs, the per-page extracted text
(`page.extract_text()` may return `None`, hence `Option`). -/
structure UploadedFile where
  filename : Str
  pages : List (Option Str)
deriving DecidableEq

/-- Embedding of `extract_text_from_file` (app.py lines 180-186): only names
ending in `.pdf` (case-insensitively) are read; page texts are joined with
newlines and stripped; every other format yields the empty string. -/
def extract_text_from_file (f : UploadedFile) : Str :=
  if endsWithStr pdfSuffix (pyLower f.filename) then
    pyStrip (joinNL (f.pages.map (fun p => p.getD [])))
  else []

/-- Embedding of the `user_prompt` f-string (app.py lines 211-222). -/
def userPrompt (form : List (Str × Str)) (timestamp textContent : Str) : Str :=
  pfTeacher ++ formGet form sTeacherKey sNA ++
  pfLessonNum ++ formGet form sLessonNumKey sNA ++
  pfLessonDur ++ formGet form sLessonDurKey sNA ++
  pfProfile ++ formGet form sProfileKey sNA ++
  pfProblems ++ formGet form sProblemsKey sNA ++
  pfRating ++ formGet form sRatingKey sGood ++
  pfTimestamp ++ timestamp ++
  pfContent ++ textContent ++ pfNL

/-- Literal strings of the line-oriented formatter. -/
def sSECTION2 : Str := "SECTION 2".data

def sSectionLow : Str := "section".data

def sDomainLow : Str := "domain name".data

def sRubricLow : Str := "rubric check".data

def sMentorLow : Str := "ai mentor comment".data

def sDomainName : Str := "Domain Name".data

def sRubricCheck : Str := "Rubric Check".data

def sMentorComment : Str := "AI Mentor Comment".data

def sSupporting : Str := "supporting details".data

def sTitle : Str := "AI Lesson Plan — Observation Readiness Coach".data

def sGeneratedOn : Str := "Generated on: ".data

def sTargetRating : Str := "Target Rating: ".data

/-- The `HEADING_KEYS` list (app.py lines 273-278). -/
def HEADING_KEYS : List Str :=
  ["lesson information".data, "learning objectives".data, "target language".data,
   "lesson stages".data, "supporting details".data, "differentiation".data,
   "assessment and feedback".data, "assessment & feedback".data,
   "reflection and notes".data, "reflection & notes".data]

/-- Character set of `.strip(" :—-")` on a heading's trailing text (line 389). -/
def stripSet : List Char := [' ', ':', '—', '-']

/-- The three case-insensitive variants matched by the cleanup regex
`summary of ai[- ]?generated guidance` (line 239). -/
def sv1 : Str := "summary of ai-generated guidance".data

def sv2 : Str := "summary of ai generated guidance".data

def sv3 : Str := "summary of aigenerated guidance".data

/-- A line removed by the `(?i)^.*summary of ai[- ]?generated guidance.*$`
multiline substitution: the pattern occurs somewhere in the line. -/
def summaryLine (l : Str) : Bool :=
  containsSub sv1 (pyLower l) || containsSub sv2 (pyLower l) || containsSub sv3 (pyLower l)

/-- Multiline substitution of matching lines by the empty string (line 239):
each line either stays or is blanked, newlines are kept. -/
def removeSummaryLines (t : Str) : Str :=
  joinNL ((splitOnChar '\n' t).map (fun l => if summaryLine l then [] else l))

/-- Helper for `re.sub(r"\n{3,}", "\n\n", ...)` (line 240): a pending run of
newlines is flushed capped at two. -/
def collapseNLAux : Nat → Str → Str
  | pending, [] => List.replicate (min pending 2) '\n'
  | pending, c :: rest =>
    if c = '\n' then collapseNLAux (pending + 1) rest
    else List.replicate (min pending 2) '\n' ++ c :: collapseNLAux 0 rest

/-- Replace every run of three or more newlines by exactly two (line 240). -/
def collapseNL (l : Str) : Str := collapseNLAux 0 l

/-- Cleanup pipeline applied to the model reply before formatting
(app.py lines 236-240): strip asterisks, blank the summary lines,
collapse blank runs, strip. -/
def processModelOutput (content : Str) : Str :=
  pyStrip (collapseNL (removeSummaryLines (removeAllChar '*' content)))

/-- Uppercase ASCII letter, the regex class `[A-Z]`. -/
def isUpperAZ (c : Char) : Bool := decide ('A' ≤ c ∧ c ≤ 'Z')

/-- The regex class `[A-Za-z &]` of `LABEL_RE` (line 281). -/
def isLabelChar (c : Char) : Bool :=
  decide ('A' ≤ c ∧ c ≤ 'Z') || decide ('a' ≤ c ∧ c ≤ 'z') || c = ' ' || c = '&'

/-- Match of `LABEL_RE = ^([A-Z][A-Za-z &]+):\s*(.*)$` (line 281): returns the
label (group 1) and the text after the colon and its leading whitespace
(group 2).  As `:` is outside the repeated class, backtracking reduces to
taking the maximal class run, which must be non-empty and followed by `:`. -/
def labelMatch (line : Str) : Option (Str × Str) :=
  match line with
  | [] => none
  | c :: rest =>
    if isUpperAZ c then
      match rest.dropWhile isLabelChar with
      | d :: rest2 =>
        if d = ':' ∧ ¬(rest.takeWhile isLabelChar).isEmpty then
          some (c :: rest.takeWhile isLabelChar, rest2.dropWhile Char.isWhitespace)
        else none
      | [] => none
    else none

/-- Match of `re.match(r"^section\s+\d+", line, re.I)` (line 300): the lowered
line starts with `section`, then at least one whitespace, then a digit. -/
def matchesSectionHdr (line : Str) : Bool :=
  sSectionLow.isPrefixOf (pyLower line) &&
    (let rest := (pyLower line).drop 7
     !(rest.takeWhile Char.isWhitespace).isEmpty &&
       (match rest.dropWhile Char.isWhitespace with
        | c :: _ => c.isDigit
        | [] => false))

/-- Value cell of a `Domain Name` line: `re.sub(r"^domain name[:]*", "", line,
flags=re.I).strip()` (line 354). -/
def domainValue (line : Str) : Str :=
  if sDomainLow.isPrefixOf (pyLower line) then
    pyStrip ((line.drop 11).dropWhile (fun c => c = ':'))
  else pyStrip line

/-- Value cell of a `Rubric Check` line (line 363). -/
def rubricValue (line : Str) : Str :=
  if sRubricLow.isPrefixOf (pyLower line) then
    pyStrip ((line.drop 12).dropWhile (fun c => c = ':'))
  else pyStrip line

/-- Value cell of an `AI Mentor Comment` line (line 371). -/
def mentorValue (line : Str) : Str :=
  if sMentorLow.isPrefixOf (pyLower line) then
    pyStrip ((line.drop 17).dropWhile (fun c => c = ':'))
  else pyStrip line

/-- First heading key the lowered line starts with (app.py lines 378-382). -/
def findHeading (line : Str) : Option Str :=
  HEADING_KEYS.find? (fun hk => hk.isPrefixOf (pyLower line))

/-- A body element of the generated document.  Formatting attributes that
carry no text (fonts, shading, margins) are not modelled; a `bullet` with
`label = some lab` renders a bold run `lab ++ ": "` before its text. -/
inductive Block where
  | heading0 (text : Str)
  | para (text : Str)
  | sectionPara (text : Str)
  | headingPara (text : Str)
  | pageBreak
  | table (rows : List (List Str))
  | bullet (label : Option Str) (text : Str)
deriving DecidableEq

/-- Formatter state of the line loop (app.py lines 261-264): the blocks so
far, the index of the currently open table (if any), its column count, and
the two mode flags. -/
structure FmtState where
  blocks : List Block
  cur : Option Nat
  curCols : Nat
  insideSection2 : Bool
  inSupp : Bool
deriving DecidableEq

/-- The `close_table` helper (app.py lines 267-270). -/
def closeTable (st : FmtState) : FmtState :=
  { st with cur := none, curCols := 0 }

/-- Append a block to the document. -/
def addBlock (st : FmtState) (b : Block) : FmtState :=
  { st with blocks := st.blocks ++ [b] }

/-- `doc.add_table`: append a table and make it current. -/
def openTableAt (st : FmtState) (rows : List (List Str)) (cols : Nat) : FmtState :=
  { st with blocks := st.blocks ++ [Block.table rows],
            cur := some st.blocks.length, curCols := cols }

/-- Pad a short row with empty cells, truncate a long one (app.py 332-335). -/
def fitRow (cols : List Str) (n : Nat) : List Str :=
  if cols.length < n then cols ++ List.replicate (n - cols.length) []
  else if n < cols.length then cols.take n
  else cols

/-- `current_table.add_row()` plus cell assignment (app.py 336-338). -/
def appendRowAt (st : FmtState) (i : Nat) (row : List Str) : FmtState :=
  match st.blocks[i]? with
  | some (Block.table rows) =>
    { st with blocks := st.blocks.set i (Block.table (rows ++ [row])) }
  | _ => st

/-- Overwrite the first two cells of row `rowIdx` of the current table when it
has at least `minRows` rows (app.py 359-374, the rubric/mentor branches). -/
def setTableRow (st : FmtState) (rowIdx minRows : Nat) (a b : Str) : FmtState :=
  match st.cur with
  | none => st
  | some i =>
    match st.blocks[i]? with
    | some (Block.table rows) =>
      if minRows ≤ rows.length then
        match rows[rowIdx]? with
        | some row =>
          { st with blocks :=
              st.blocks.set i (Block.table (rows.set rowIdx ((row.set 0 a).set 1 b))) }
        | none => st
      else st
    | _ => st

/-- Body of one iteration of the `for raw in lesson_text.split("\n")` loop
(app.py lines 283-427) after `line = raw.strip()`, translated branch for
branch in the source's order. -/
def stepCore (st : FmtState) (line : Str) : FmtState :=
  if line = [] then
    if st.inSupp then { st with inSupp := false } else st
  else if containsSub sSECTION2 (pyUpper line) && !st.insideSection2 then
    { addBlock (closeTable st) Block.pageBreak with insideSection2 := true, inSupp := false }
  else if matchesSectionHdr line then
    addBlock (addBlock { closeTable st with inSupp := false }
      (Block.sectionPara (pyUpper line))) (Block.para [])
  else if '|' ∈ line then
    let cols := (splitOnChar '|' line).map pyStrip
    match st.cur with
    | none => openTableAt st [cols] cols.length
    | some i => appendRowAt st i (fitRow cols st.curCols)
  else if sDomainLow.isPrefixOf (pyLower line) then
    openTableAt { closeTable st with inSupp := false }
      [[sDomainName, domainValue line], [[], []], [[], []]] 2
  else if sRubricLow.isPrefixOf (pyLower line) then
    setTableRow st 1 2 sRubricCheck (rubricValue line)
  else if sMentorLow.isPrefixOf (pyLower line) then
    closeTable (setTableRow st 2 3 sMentorComment (mentorValue line))
  else
    match findHeading line with
    | some hk =>
      let st2 := addBlock { closeTable st with inSupp := containsSub sSupporting hk }
        (Block.headingPara (line.take hk.length))
      let trailing := pyStripChars stripSet (line.drop hk.length)
      if trailing = [] then st2 else addBlock st2 (Block.para trailing)
    | none =>
      if st.inSupp then
        match labelMatch line with
        | some lr => addBlock st (Block.bullet (some lr.1) lr.2)
        | none => addBlock st (Block.bullet none line)
      else
        addBlock { closeTable st with inSupp := false } (Block.para line)

/-- One loop iteration: strip the raw line, then dispatch on its shape. -/
def stepLine (st : FmtState) (raw : Str) : FmtState :=
  stepCore st (pyStrip raw)

/-- The fixed blocks added before the loop (app.py lines 256-259). -/
def initBlocks (timestamp targetRating : Str) : List Block :=
  [Block.heading0 sTitle,
   Block.para (sGeneratedOn ++ timestamp),
   Block.para (sTargetRating ++ targetRating),
   Block.para []]

/-- An empty formatter state. -/
def emptyFmt : FmtState := ⟨[], none, 0, false, false⟩

/-- Run the formatter loop over the (already cleaned) lesson text. -/
def formatText (timestamp targetRating lessonText : Str) : List Block :=
  (List.foldl stepLine ⟨initBlocks timestamp targetRating, none, 0, false, false⟩
    (splitOnChar '\n' lessonText)).blocks

/-- Full body of the generated document for a raw model reply. -/
def buildDoc (timestamp targetRating content : Str) : List Block :=
  formatText timestamp targetRating (processModelOutput content)

/-- An HTTP response of this service: a JSON body with a status code, or a
`send_file` attachment download of a generated document (status 200). -/
inductive Response where
  | json (status : Nat) (body : List (Str × Str))
  | docx (downloadName : Str) (blocks : List Block)
deriving DecidableEq

/-- Module-level state created at import time: the OpenAI client holding the
API key read from the environment (app.py line 33).  No other module-level
value is ever assigned by request handling. -/
structure ModuleState where
  apiKey : Option Str
deriving DecidableEq

/-- `client = OpenAI(api_key=os.getenv("OPENAI_API_KEY"))` (app.py line 33). -/
def initModule (env : List (Str × Str)) : ModuleState :=
  ⟨lookupStr env sEnvKey⟩

/-- The `home` handler (app.py lines 38-40). -/
def home : Response := Response.json 200 [(sMessageKey, sHomeMsg)]

/-- A `/generate` request: the optional uploaded file and the form fields. -/
structure GenRequest where
  file : Option UploadedFile
  form : List (Str × Str)

/-- The chat-completion endpoint abstracted as an oracle: it receives the
configured API key and the user prompt, and either raises (an exception
string, caught by the blanket handler) or returns the reply content, which
the API may report as `None`. -/
def Oracle : Type := Option Str → Str → Except Str (Option Str)

/-- Everything a single `/generate` request depends on besides module state:
the request itself, the formatted `datetime.now()` timestamp, and the
behaviour of the external model endpoint. -/
structure RequestCtx where
  req : GenRequest
  timestamp : Str
  oracle : Oracle

/-- Embedding of the `generate_lesson_plan` handler (app.py lines 191-444).
It reads but never writes the module state, so the handler returns the state
unchanged alongside the response.  A missing file or empty extracted text
yields an explicit 400; an exception from the model call is caught by the
blanket handler and reported as a 500 with the exception string; otherwise
the reply is formatted and returned as an attachment download. -/
def generate_lesson_plan (ms : ModuleState) (ctx : RequestCtx) : ModuleState × Response :=
  match ctx.req.file with
  | none => (ms, Response.json 400 [(sErrorKey, sNoFileMsg)])
  | some f =>
    if extract_text_from_file f = [] then (ms, Response.json 400 [(sErrorKey, sNoTextMsg)])
    else
      match ctx.oracle ms.apiKey
        (userPrompt ctx.req.form ctx.timestamp (extract_text_from_file f)) with
      | Except.error e => (ms, Response.json 500 [(sErrorKey, e)])
      | Except.ok content =>
        (ms, Response.docx sDlName
          (buildDoc ctx.timestamp (formGet ctx.req.form sRatingKey sGood) (content.getD [])))

/-- Sequential handling of a series of `/generate` requests, threading the
module state through each handler call. -/
def runServer (ms : ModuleState) : List RequestCtx → ModuleState × List Response
  | [] => (ms, [])
  | c :: rest =>
    let r := generate_lesson_plan ms c
    let rs := runServer r.1 rest
    (rs.1, r.2 :: rs.2)

/-- A registered route: HTTP method and URL rule. -/
structure Route where
  verb : Str
  path : Str
deriving DecidableEq

def sGET : Str := "GET".data

def sOPTIONS : Str := "OPTIONS".data

def sPOST : Str := "POST".data

def sRoot : Str := "/".data

def sGenPath : Str := "/generate".data

/-- The route table registered by the module: `GET /` (line 38),
`OPTIONS /generate` (line 43) and `POST /generate` (line 191). -/
def routes : List Route := [⟨sGET, sRoot⟩, ⟨sOPTIONS, sGenPath⟩, ⟨sPOST, sGenPath⟩]

/-- Invariant of the formatter state: whenever a table is current, that index
holds a table block, the table has at least its header row, and every row of
it has exactly `curCols` cells. -/
def TableInv (st : FmtState) : Prop :=
  ∀ i, st.cur = some i → ∃ rows, st.blocks[i]? = some (Block.table rows) ∧
    rows ≠ [] ∧ ∀ r ∈ rows, r.length = st.curCols

/-- Star-freeness of one document block. -/
def blockStarFree : Block → Prop
  | Block.heading0 t => '*' ∉ t
  | Block.para t => '*' ∉ t
  | Block.sectionPara t => '*' ∉ t
  | Block.headingPara t => '*' ∉ t
  | Block.pageBreak => True
  | Block.table rows => ∀ r ∈ rows, ∀ cell ∈ r, '*' ∉ cell
  | Block.bullet lab t => '*' ∉ lab.getD [] ∧ '*' ∉ t

instance decBlockStarFree : (b : Block) → Decidable (blockStarFree b)
  | Block.heading0 t => inferInstanceAs (Decidable ('*' ∉ t))
  | Block.para t => inferInstanceAs (Decidable ('*' ∉ t))
  | Block.sectionPara t => inferInstanceAs (Decidable ('*' ∉ t))
  | Block.headingPara t => inferInstanceAs (Decidable ('*' ∉ t))
  | Block.pageBreak => inferInstanceAs (Decidable True)
  | Block.table rows => inferInstanceAs (Decidable (∀ r ∈ rows, ∀ cell ∈ r, '*' ∉ cell))
  | Block.bullet lab t => inferInstanceAs (Decidable ('*' ∉ lab.getD [] ∧ '*' ∉ t))

/-- Concrete witness inputs used to instantiate the proved properties. -/
def pdfFileW : UploadedFile := ⟨"lesson.pdf".data, [some ("Unit content".data)]⟩

def oracleW : Oracle := fun _ _ => Except.ok (some ("SECTION 1\nplan".data))

def ctxW : RequestCtx := ⟨⟨some pdfFileW, []⟩, "2025-01-01 10:00".data, oracleW⟩

def wordFileX : UploadedFile := ⟨"lesson.docx".data, [some ("Unit 5 Grammar".data)]⟩

def ctxWordX : RequestCtx :=
  ⟨⟨some wordFileX, []⟩, "2025-01-01 09:00".data, fun _ _ => Except.ok (some ("plan".data))⟩

def xlsFileW : UploadedFile := ⟨"data.xlsx".data, [some ("cells".data)]⟩

def tableStateW : FmtState :=
  ⟨[Block.table [["Stage".data, "Timing".data]]], some 0, 2, false, false⟩

def hdW : List Str := [("Stage").data, ("Timing").data]

def lineW : Str := "John | 45 | extra".data

/-! Helper lemmas shared by the claim theorems. -/

/-- The handler never writes the module-level state. -/
theorem gen_fst (ms : ModuleState) (ctx : RequestCtx) :
    (generate_lesson_plan ms ctx).1 = ms := by
  unfold generate_lesson_plan
  cases hf : ctx.req.file with
  | none => rfl
  | some f =>
    dsimp only
    split
    · rfl
    · split <;> rfl

/-- A padded or truncated row always has exactly the requested cell count. -/
theorem fitRow_length (cols : List Str) (n : Nat) : (fitRow cols n).length = n := by
  unfold fitRow
  split_ifs with h1 h2
  · simp only [List.length_append, List.length_replicate]
    omega
  · simp only [List.length_take]
    omega
  · omega

/-- Short rows are right-padded with empty cells. -/
theorem fitRow_of_le (cols : List Str) (n : Nat) (h : cols.length ≤ n) :
    fitRow cols n = cols ++ List.replicate (n - cols.length) [] := by
  unfold fitRow
  split_ifs with h1 h2
  · rfl
  · omega
  · have hn : n - cols.length = 0 := by omega
    rw [hn]
    simp

/-- Long rows are truncated to the requested cell count. -/
theorem fitRow_of_gt (cols : List Str) (n : Nat) (h : n < cols.length) :
    fitRow cols n = cols.take n := by
  unfold fitRow
  split_ifs with h1
  · omega
  · rfl

/-- Upper-casing never produces an asterisk from another character. -/
theorem toUpper_star {c : Char} (h : c.toUpper = '*') : c = '*' := by
  unfold Char.toUpper at h
  dsimp only at h
  split_ifs at h with hc
  · exfalso
    obtain ⟨h1, h2⟩ := hc
    generalize hn : c.toNat = n at h h1 h2
    interval_cases n <;> exact absurd h (by decide)
  · exact h

/-- Characters of a doubly stripped list come from the original list. -/
theorem mem_stripAux {p q : Char → Bool} {l : Str} {a : Char}
    (h : a ∈ ((l.dropWhile p).reverse.dropWhile q).reverse) : a ∈ l := by
  rw [List.mem_reverse] at h
  have h2 := (List.dropWhile_sublist q).subset h
  rw [List.mem_reverse] at h2
  exact (List.dropWhile_sublist p).subset h2

/-- Characters of `pyStrip l` come from `l`. -/
theorem mem_pyStrip {l : Str} {a : Char} (h : a ∈ pyStrip l) : a ∈ l :=
  mem_stripAux h

/-- Characters of `pyStripChars cs l` come from `l`. -/
theorem mem_pyStripChars {cs : List Char} {l : Str} {a : Char}
    (h : a ∈ pyStripChars cs l) : a ∈ l :=
  mem_stripAux h

/-- Every part of a split is made of characters of the split list. -/
theorem splitOnChar_subset {sep : Char} {l : Str} :
    ∀ {part : Str}, part ∈ splitOnChar sep l → part ⊆ l := by
  induction l with
  | nil =>
    intro part hp
    simp only [splitOnChar, List.mem_singleton] at hp
    subst hp
    exact List.nil_subset _
  | cons c rest ih =>
    intro part hp
    simp only [splitOnChar] at hp
    split_ifs at hp with hc
    · rcases List.mem_cons.1 hp with h | h
      · subst h
        exact List.nil_subset _
      · exact (ih h).trans (List.subset_cons_self c rest)
    · cases hsplit : splitOnChar sep rest with
      | nil =>
        rw [hsplit] at hp
        simp only [List.mem_singleton] at hp
        subst hp
        intro a hA
        rw [List.mem_singleton] at hA
        subst hA
        exact List.mem_cons_self _ _
      | cons h0 t =>
        rw [hsplit] at hp
        rcases List.mem_cons.1 hp with h | h
        · subst h
          intro a hA
          rcases List.mem_cons.1 hA with rfl | h2
          · exact List.mem_cons_self _ _
          · refine List.mem_cons_of_mem _ (ih ?_ h2)
            rw [hsplit]
            exact List.mem_cons_self _ _
        · refine (ih ?_).trans (List.subset_cons_self c rest)
          rw [hsplit]
          exact List.mem_cons_of_mem _ h

/-- Characters of any part of a split come from the split list. -/
theorem mem_splitOnChar {sep : Char} {l part : Str} {a : Char}
    (hp : part ∈ splitOnChar sep l) (ha : a ∈ part) : a ∈ l :=
  splitOnChar_subset hp ha

/-- Characters of a join come from the parts or are newlines. -/
theorem mem_joinNL {parts : List Str} {a : Char} (h : a ∈ joinNL parts) :
    a = '\n' ∨ ∃ part ∈ parts, a ∈ part := by
  induction parts with
  | nil => cases h
  | cons l rest ih =>
    cases rest with
    | nil =>
      right
      exact ⟨l, List.mem_cons_self _ _, h⟩
    | cons r t =>
      simp only [joinNL] at h
      rcases List.mem_append.1 h with h1 | h1
      · exact Or.inr ⟨l, List.mem_cons_self _ _, h1⟩
      · rcases List.mem_cons.1 h1 with rfl | h2
        · exact Or.inl rfl
        · rcases ih h2 with h3 | ⟨part, hp, hap⟩
          · exact Or.inl h3
          · exact Or.inr ⟨part, List.mem_cons_of_mem _ hp, hap⟩

/-- A state with no current table satisfies the invariant vacuously. -/
theorem tableInv_of_cur_none {st : FmtState} (h : st.cur = none) : TableInv st := by
  intro i hi
  rw [h] at hi
  cases hi

/-- Appending a non-table block preserves the invariant. -/
theorem tableInv_addBlock {st : FmtState} (h : TableInv st) (b : Block) :
    TableInv (addBlock st b) := by
  intro i hi
  obtain ⟨rows, hget, hne, hlen⟩ := h i hi
  obtain ⟨hlt, -⟩ := List.getElem?_eq_some_iff.1 hget
  exact ⟨rows, by simpa [addBlock, List.getElem?_append_left hlt] using hget, hne, hlen⟩

/-- Opening a fresh table with uniform row widths establishes the invariant. -/
theorem tableInv_openTableAt {st : FmtState} (rows : List (List Str)) (cols : Nat)
    (hne : rows ≠ []) (hlen : ∀ r ∈ rows, r.length = cols) :
    TableInv (openTableAt st rows cols) := by
  intro i hi
  have hi2 : st.blocks.length = i := by
    injection hi
  subst hi2
  exact ⟨rows, List.getElem?_concat_length st.blocks _, hne, hlen⟩

/-- Appending a row of the right width preserves the invariant. -/
theorem tableInv_appendRowAt {st : FmtState} {i : Nat} (h : TableInv st)
    (hcur : st.cur = some i) (row : List Str) (hrow : row.length = st.curCols) :
    TableInv (appendRowAt st i row) := by
  obtain ⟨rows, hget, hne, hlen⟩ := h i hcur
  obtain ⟨hlt, -⟩ := List.getElem?_eq_some_iff.1 hget
  unfold appendRowAt
  split
  · rename_i rows2 hget2
    have hr2 : rows2 = rows := by
      rw [hget2] at hget
      injection hget with e
      injection e
    subst hr2
    intro j hj
    have hj1 : st.cur = some j := hj
    rw [hcur] at hj1
    have hj2 : i = j := by
      injection hj1
    subst hj2
    refine ⟨rows2 ++ [row], ?_, by simp, ?_⟩
    · exact List.getElem?_set_self hlt
    · intro r hr
      rcases List.mem_append.1 hr with hr1 | hr1
      · exact hlen r hr1
      · rw [List.mem_singleton.1 hr1]
        exact hrow
  · exact h

/-- Overwriting two cells of an existing row preserves the invariant. -/
theorem tableInv_setTableRow {st : FmtState} (h : TableInv st) (idx m : Nat) (a b : Str) :
    TableInv (setTableRow st idx m a b) := by
  unfold setTableRow
  split
  · exact h
  · rename_i i hcur
    split
    · rename_i rows hget
      obtain ⟨hlt, -⟩ := List.getElem?_eq_some_iff.1 hget
      obtain ⟨rows1, hget1, hne, hlen⟩ := h i hcur
      have hr1 : rows1 = rows := by
        rw [hget1] at hget
        injection hget with e
        injection e
      subst hr1
      split_ifs with hm
      · split
        · rename_i row hrowq
          intro j hj
          have hj1 : st.cur = some j := hj
          rw [hcur] at hj1
          have hj2 : i = j := by
            injection hj1
          subst hj2
          refine ⟨rows1.set idx ((row.set 0 a).set 1 b), ?_, ?_, ?_⟩
          · exact List.getElem?_set_self hlt
          · intro hzero
            apply hne
            have hlz := congrArg List.length hzero
            simp only [List.length_set, List.length_nil] at hlz
            exact List.length_eq_zero.1 hlz
          · intro r hr
            rcases List.mem_or_eq_of_mem_set hr with hr1 | hr1
            · exact hlen r hr1
            · rw [hr1]
              simp only [List.length_set]
              exact hlen row (List.getElem?_mem hrowq)
        · exact h
      · exact h
    · exact h

/-- Every branch of the line dispatcher preserves the table invariant. -/
theorem tableInv_stepCore {st : FmtState} (h : TableInv st) (line : Str) :
    TableInv (stepCore st line) := by
  unfold stepCore
  split_ifs with hA hS hB hC hD hE hF hG hH
  · exact h
  · exact h
  · exact tableInv_of_cur_none rfl
  · exact tableInv_of_cur_none rfl
  · split
    · rename_i hcur
      exact tableInv_openTableAt _ _ (by simp) (by simp)
    · rename_i i hcur
      exact tableInv_appendRowAt h hcur _ (fitRow_length _ _)
  · apply tableInv_openTableAt
    · simp
    · intro r hr
      simp only [List.mem_cons] at hr
      rcases hr with rfl | rfl | rfl | hr
      · rfl
      · rfl
      · rfl
      · cases hr
  · exact tableInv_setTableRow h 1 2 _ _
  · exact tableInv_of_cur_none rfl
  · split
    · dsimp only
      split_ifs with hT
      · exact tableInv_of_cur_none rfl
      · exact tableInv_of_cur_none rfl
    · split
      · exact tableInv_addBlock h _
      · exact tableInv_addBlock h _
  · split
    · dsimp only
      split_ifs with hT
      · exact tableInv_of_cur_none rfl
      · exact tableInv_of_cur_none rfl
    · exact tableInv_of_cur_none rfl

/-! Asterisk-freeness machinery. -/

/-- Transport of non-membership along a subset relation. -/
theorem starFree_subset {l m : Str} (hsub : m ⊆ l) (h : '*' ∉ l) : '*' ∉ m :=
  fun hm => h (hsub hm)

/-- Strip is a subset of the original. -/
theorem pyStrip_subset (l : Str) : pyStrip l ⊆ l :=
  fun _ ha => mem_pyStrip ha

/-- Character-set strip is a subset of the original. -/
theorem pyStripChars_subset (cs : List Char) (l : Str) : pyStripChars cs l ⊆ l :=
  fun _ ha => mem_pyStripChars ha

/-- Upper-casing a string with no asterisk yields no asterisk. -/
theorem starFree_pyUpper {l : Str} (h : '*' ∉ l) : '*' ∉ pyUpper l := by
  intro hm
  rcases List.mem_map.1 hm with ⟨c, hc, hcu⟩
  exact h (toUpper_star hcu ▸ hc)

/-- The stripped cells of a pipe split contain no new characters. -/
theorem starFree_splitCols {line : Str} (h : '*' ∉ line) :
    ∀ cell ∈ (splitOnChar '|' line).map pyStrip, '*' ∉ cell := by
  intro cell hc hm
  rcases List.mem_map.1 hc with ⟨part, hp, rfl⟩
  exact h (mem_splitOnChar hp (mem_pyStrip hm))

/-- The residue of a prefix-stripping value extractor is a subset of the line. -/
theorem stripAfterDrop_subset (n : Nat) (line : Str) :
    pyStrip ((line.drop n).dropWhile (fun c => c = ':')) ⊆ line := by
  intro a ha
  have h2 := mem_pyStrip ha
  have h3 := (List.dropWhile_sublist _).subset h2
  exact (List.drop_sublist n line).subset h3

/-- The domain-name cell text is made of characters of the line. -/
theorem domainValue_subset (line : Str) : domainValue line ⊆ line := by
  unfold domainValue
  split_ifs with h1
  · exact stripAfterDrop_subset 11 line
  · exact pyStrip_subset line

/-- The rubric-check cell text is made of characters of the line. -/
theorem rubricValue_subset (line : Str) : rubricValue line ⊆ line := by
  unfold rubricValue
  split_ifs with h1
  · exact stripAfterDrop_subset 12 line
  · exact pyStrip_subset line

/-- The mentor-comment cell text is made of characters of the line. -/
theorem mentorValue_subset (line : Str) : mentorValue line ⊆ line := by
  unfold mentorValue
  split_ifs with h1
  · exact stripAfterDrop_subset 17 line
  · exact pyStrip_subset line

/-- Both components of a label match are made of characters of the line. -/
theorem labelMatch_subset {line lab rest : Str} (h : labelMatch line = some (lab, rest)) :
    lab ⊆ line ∧ rest ⊆ line := by
  cases line with
  | nil => simp [labelMatch] at h
  | cons c r =>
    unfold labelMatch at h
    dsimp only at h
    split_ifs at h with hU
    · cases hd : r.dropWhile isLabelChar with
      | nil =>
        rw [hd] at h
        cases h
      | cons d rest2 =>
        rw [hd] at h
        dsimp only at h
        split_ifs at h with hcol
        · injection h with e
          obtain ⟨e1, e2⟩ := Prod.mk.injEq .. ▸ e
          constructor
          · rw [← e1]
            intro a ha
            rcases List.mem_cons.1 ha with rfl | ha2
            · exact List.mem_cons_self _ _
            · exact List.mem_cons_of_mem _ ((List.takeWhile_sublist _).subset ha2)
          · rw [← e2]
            intro a ha
            have ha2 := (List.dropWhile_sublist Char.isWhitespace).subset ha
            have ha3 : a ∈ d :: rest2 := List.mem_cons_of_mem _ ha2
            rw [← hd] at ha3
            exact List.mem_cons_of_mem _ ((List.dropWhile_sublist _).subset ha3)

/-- Appending a conforming block preserves a blockwise property. -/
theorem forall_mem_addBlock {st : FmtState} {p : Block → Prop} (h : ∀ b ∈ st.blocks, p b)
    {nb : Block} (hnb : p nb) : ∀ b ∈ (addBlock st nb).blocks, p b := by
  intro b hb
  rcases List.mem_append.1 hb with hb1 | hb1
  · exact h b hb1
  · rw [List.mem_singleton.1 hb1]
    exact hnb

/-- Appending a conforming row to the table at `i` preserves a blockwise property. -/
theorem forall_mem_appendRowAt {st : FmtState} {p : Block → Prop}
    (h : ∀ b ∈ st.blocks, p b) (i : Nat) {row : List Str}
    (hrow : ∀ rows, st.blocks[i]? = some (Block.table rows) → p (Block.table (rows ++ [row]))) :
    ∀ b ∈ (appendRowAt st i row).blocks, p b := by
  unfold appendRowAt
  split
  · rename_i rows hget
    intro b hb
    rcases List.mem_or_eq_of_mem_set hb with hb1 | hb1
    · exact h b hb1
    · rw [hb1]
      exact hrow rows hget
  · exact h

/-- Overwriting two cells in the current table preserves a blockwise property. -/
theorem forall_mem_setTableRow {st : FmtState} {p : Block → Prop}
    (h : ∀ b ∈ st.blocks, p b) (idx m : Nat) {a b2 : Str}
    (hnew : ∀ i rows row, st.cur = some i → st.blocks[i]? = some (Block.table rows) →
      rows[idx]? = some row → p (Block.table (rows.set idx ((row.set 0 a).set 1 b2)))) :
    ∀ b ∈ (setTableRow st idx m a b2).blocks, p b := by
  unfold setTableRow
  split
  · exact h
  · rename_i i hcur
    split
    · rename_i rows hget
      split_ifs with hm
      · split
        · rename_i row hrowq
          intro b hb
          rcases List.mem_or_eq_of_mem_set hb with hb1 | hb1
          · exact h b hb1
          · rw [hb1]
            exact hnew i rows row hcur hget hrowq
        · exact h
      · exact h
    · exact h

/-- Cells of a padded or truncated row keep the no-asterisk property. -/
theorem starFree_fitRow {cols : List Str} (h : ∀ cell ∈ cols, '*' ∉ cell) (n : Nat) :
    ∀ cell ∈ fitRow cols n, '*' ∉ cell := by
  intro cell hc
  unfold fitRow at hc
  split_ifs at hc with h1 h2
  · rcases List.mem_append.1 hc with hc1 | hc1
    · exact h cell hc1
    · rw [List.eq_of_mem_replicate hc1]
      exact List.not_mem_nil _
  · exact h cell (List.mem_of_mem_take hc)
  · exact h cell hc

/-- Every branch of the line dispatcher adds only asterisk-free text when the
line itself is asterisk-free. -/
theorem starFree_stepCore {st : FmtState} {line : Str}
    (hline : '*' ∉ line) (h : ∀ b ∈ st.blocks, blockStarFree b) :
    ∀ b ∈ (stepCore st line).blocks, blockStarFree b := by
  unfold stepCore
  split_ifs with hA hS hB hC hD hE hF hG hH
  · exact h
  · exact h
  · exact forall_mem_addBlock h True.intro
  · exact forall_mem_addBlock
      (forall_mem_addBlock h
        (show blockStarFree (Block.sectionPara (pyUpper line)) from starFree_pyUpper hline))
      (show blockStarFree (Block.para []) from List.not_mem_nil _)
  · split
    · intro b hb
      rcases List.mem_append.1 hb with hb1 | hb1
      · exact h b hb1
      · rw [List.mem_singleton.1 hb1]
        intro r hr cell hc
        rw [List.mem_singleton.1 hr] at hc
        exact starFree_splitCols hline cell hc
    · rename_i i hcur
      refine forall_mem_appendRowAt h i ?_
      intro rows hget r hr cell hc
      rcases List.mem_append.1 hr with hr1 | hr1
      · exact h _ (List.getElem?_mem hget) r hr1 cell hc
      · rw [List.mem_singleton.1 hr1] at hc
        exact starFree_fitRow (starFree_splitCols hline) _ cell hc
  · intro b hb
    rcases List.mem_append.1 hb with hb1 | hb1
    · exact h b hb1
    · rw [List.mem_singleton.1 hb1]
      intro r hr cell hc
      simp only [List.mem_cons, List.not_mem_nil, or_false] at hr
      rcases hr with rfl | rfl | rfl
      · rcases List.mem_cons.1 hc with rfl | hc2
        · decide
        · rw [List.mem_singleton.1 hc2]
          exact starFree_subset (domainValue_subset line) hline
      · rcases List.mem_cons.1 hc with rfl | hc2
        · exact List.not_mem_nil _
        · rw [List.mem_singleton.1 hc2]
          exact List.not_mem_nil _
      · rcases List.mem_cons.1 hc with rfl | hc2
        · exact List.not_mem_nil _
        · rw [List.mem_singleton.1 hc2]
          exact List.not_mem_nil _
  · refine forall_mem_setTableRow h 1 2 ?_
    intro i rows row hcur hget hrowq r hr cell hc
    rcases List.mem_or_eq_of_mem_set hr with hr1 | hr1
    · exact h _ (List.getElem?_mem hget) r hr1 cell hc
    · rw [hr1] at hc
      rcases List.mem_or_eq_of_mem_set hc with hc1 | hc1
      · rcases List.mem_or_eq_of_mem_set hc1 with hc2 | hc2
        · exact h _ (List.getElem?_mem hget) row (List.getElem?_mem hrowq) cell hc2
        · rw [hc2]
          decide
      · rw [hc1]
        exact starFree_subset (rubricValue_subset line) hline
  · refine forall_mem_setTableRow h 2 3 ?_
    intro i rows row hcur hget hrowq r hr cell hc
    rcases List.mem_or_eq_of_mem_set hr with hr1 | hr1
    · exact h _ (List.getElem?_mem hget) r hr1 cell hc
    · rw [hr1] at hc
      rcases List.mem_or_eq_of_mem_set hc with hc1 | hc1
      · rcases List.mem_or_eq_of_mem_set hc1 with hc2 | hc2
        · exact h _ (List.getElem?_mem hget) row (List.getElem?_mem hrowq) cell hc2
        · rw [hc2]
          decide
      · rw [hc1]
        exact starFree_subset (mentorValue_subset line) hline
  · split
    · rename_i hk heq
      dsimp only
      split_ifs with hT
      · exact forall_mem_addBlock h
          (show blockStarFree (Block.headingPara (line.take hk.length)) from
            starFree_subset ((List.take_sublist _ _).subset) hline)
      · exact forall_mem_addBlock
          (forall_mem_addBlock h
            (show blockStarFree (Block.headingPara (line.take hk.length)) from
              starFree_subset ((List.take_sublist _ _).subset) hline))
          (show blockStarFree (Block.para (pyStripChars stripSet (line.drop hk.length))) from
            starFree_subset (fun a ha => (List.drop_sublist _ _).subset (mem_pyStripChars ha)) hline)
    · split
      · rename_i lr heq
        obtain ⟨lab, rst⟩ := lr
        obtain ⟨hsub1, hsub2⟩ := labelMatch_subset heq
        exact forall_mem_addBlock h
          (show blockStarFree (Block.bullet (some lab) rst) from
            ⟨starFree_subset hsub1 hline, starFree_subset hsub2 hline⟩)
      · exact forall_mem_addBlock h
          (show blockStarFree (Block.bullet none line) from ⟨List.not_mem_nil _, hline⟩)
  · split
    · rename_i hk heq
      dsimp only
      split_ifs with hT
      · exact forall_mem_addBlock h
          (show blockStarFree (Block.headingPara (line.take hk.length)) from
            starFree_subset ((List.take_sublist _ _).subset) hline)
      · exact forall_mem_addBlock
          (forall_mem_addBlock h
            (show blockStarFree (Block.headingPara (line.take hk.length)) from
              starFree_subset ((List.take_sublist _ _).subset) hline))
          (show blockStarFree (Block.para (pyStripChars stripSet (line.drop hk.length))) from
            starFree_subset (fun a ha => (List.drop_sublist _ _).subset (mem_pyStripChars ha)) hline)
    · exact forall_mem_addBlock h
        (show blockStarFree (Block.para line) from hline)

/-- Running the loop over asterisk-free lines keeps every block asterisk-free. -/
theorem starFree_foldl (lines : List Str) :
    ∀ (st : FmtState), (∀ l2 ∈ lines, '*' ∉ l2) → (∀ b ∈ st.blocks, blockStarFree b) →
      ∀ b ∈ (List.foldl stepLine st lines).blocks, blockStarFree b := by
  induction lines with
  | nil =>
    intro st _ h
    exact h
  | cons l rest ih =>
    intro st hl h
    simp only [List.foldl_cons]
    exact ih _ (fun x hx => hl x (List.mem_cons_of_mem _ hx))
      (starFree_stepCore (starFree_subset (pyStrip_subset l) (hl l (List.mem_cons_self _ _))) h)

/-- Characters of the newline-collapsed string are newlines or original. -/
theorem mem_collapseNLAux {l : Str} {a : Char} :
    ∀ {p : Nat}, a ∈ collapseNLAux p l → a = '\n' ∨ a ∈ l := by
  induction l with
  | nil =>
    intro p h
    exact Or.inl (List.eq_of_mem_replicate h)
  | cons c rest ih =>
    intro p h
    simp only [collapseNLAux] at h
    split_ifs at h with hc
    · rcases ih h with h1 | h1
      · exact Or.inl h1
      · exact Or.inr (List.mem_cons_of_mem _ h1)
    · rcases List.mem_append.1 h with h1 | h1
      · exact Or.inl (List.eq_of_mem_replicate h1)
      · rcases List.mem_cons.1 h1 with rfl | h2
        · exact Or.inr (List.mem_cons_self _ _)
        · rcases ih h2 with h3 | h3
          · exact Or.inl h3
          · exact Or.inr (List.mem_cons_of_mem _ h3)

/-- The asterisk replacement removes every asterisk. -/
theorem starFree_removeAllChar (content : Str) : '*' ∉ removeAllChar '*' content := by
  intro h
  rcases List.mem_filter.1 h with ⟨-, hp⟩
  simp at hp

/-- The entire cleanup pipeline yields an asterisk-free lesson text. -/
theorem starFree_processModelOutput (content : Str) : '*' ∉ processModelOutput content := by
  intro h
  have h1 : ('*' : Char) ∈ collapseNL (removeSummaryLines (removeAllChar '*' content)) :=
    mem_pyStrip h
  rcases mem_collapseNLAux h1 with h2 | h2
  · exact absurd h2 (by decide)
  · rcases mem_joinNL h2 with h3 | ⟨part, hp, hap⟩
    · exact absurd h3 (by decide)
    · rcases List.mem_map.1 hp with ⟨orig, horig, rfl⟩
      by_cases hsum : summaryLine orig = true
      · rw [if_pos hsum] at hap
        cases hap
      · rw [if_neg hsum] at hap
        exact starFree_removeAllChar content (mem_splitOnChar horig hap)

/-! Response-shape helpers for the `/generate` handler. -/

/-- Missing file: explicit 400 validation response (app.py lines 194-196). -/
theorem gen_snd_nofile {ms : ModuleState} {ctx : RequestCtx} (hf : ctx.req.file = none) :
    (generate_lesson_plan ms ctx).2 = Response.json 400 [(sErrorKey, sNoFileMsg)] := by
  unfold generate_lesson_plan
  rw [hf]

/-- Empty extracted text: explicit 400 validation response (lines 198-200). -/
theorem gen_snd_notext {ms : ModuleState} {ctx : RequestCtx} {f : UploadedFile}
    (hf : ctx.req.file = some f) (ht : extract_text_from_file f = []) :
    (generate_lesson_plan ms ctx).2 = Response.json 400 [(sErrorKey, sNoTextMsg)] := by
  unfold generate_lesson_plan
  rw [hf]
  dsimp only
  rw [if_pos ht]

/-- A raised exception from the model call: blanket 500 (lines 442-444). -/
theorem gen_snd_err {ms : ModuleState} {ctx : RequestCtx} {f : UploadedFile} {e : Str}
    (hf : ctx.req.file = some f) (ht : extract_text_from_file f ≠ [])
    (ho : ctx.oracle ms.apiKey
      (userPrompt ctx.req.form ctx.timestamp (extract_text_from_file f)) = Except.error e) :
    (generate_lesson_plan ms ctx).2 = Response.json 500 [(sErrorKey, e)] := by
  unfold generate_lesson_plan
  rw [hf]
  dsimp only
  rw [if_neg ht, ho]

/-- A normal model reply: attachment download of the built document (436-440). -/
theorem gen_snd_ok {ms : ModuleState} {ctx : RequestCtx} {f : UploadedFile} {c : Option Str}
    (hf : ctx.req.file = some f) (ht : extract_text_from_file f ≠ [])
    (ho : ctx.oracle ms.apiKey
      (userPrompt ctx.req.form ctx.timestamp (extract_text_from_file f)) = Except.ok c) :
    (generate_lesson_plan ms ctx).2 =
      Response.docx sDlName
        (buildDoc ctx.timestamp (formGet ctx.req.form sRatingKey sGood) (c.getD [])) := by
  unfold generate_lesson_plan
  rw [hf]
  dsimp only
  rw [if_neg ht, ho]

/-! Branch-shape helpers for the line dispatcher. -/

/-- A pipe line with no open table opens a new table whose single (header) row
is the stripped pipe split (app.py lines 315-330). -/
theorem stepCore_pipe_new {st : FmtState} {line : Str}
    (h1 : line ≠ [])
    (h2 : (containsSub sSECTION2 (pyUpper line) && !st.insideSection2) = false)
    (h3 : matchesSectionHdr line = false)
    (hp : '|' ∈ line) (hcur : st.cur = none) :
    stepCore st line =
      openTableAt st [(splitOnChar '|' line).map pyStrip]
        ((splitOnChar '|' line).map pyStrip).length := by
  unfold stepCore
  rw [if_neg h1, if_neg (by simp [h2]), if_neg (by simp [h3]), if_pos hp]
  dsimp only
  rw [hcur]

/-- A pipe line with an open table appends a fitted row to it (lines 331-338). -/
theorem stepCore_pipe_append {st : FmtState} {line : Str} {i : Nat}
    {rows : List (List Str)}
    (h1 : line ≠ [])
    (h2 : (containsSub sSECTION2 (pyUpper line) && !st.insideSection2) = false)
    (h3 : matchesSectionHdr line = false)
    (hp : '|' ∈ line) (hcur : st.cur = some i)
    (hget : st.blocks[i]? = some (Block.table rows)) :
    stepCore st line =
      { st with blocks := (st.blocks.set i
          (Block.table (rows ++ [fitRow ((splitOnChar '|' line).map pyStrip) st.curCols]))) } := by
  unfold stepCore
  rw [if_neg h1, if_neg (by simp [h2]), if_neg (by simp [h3]), if_pos hp]
  dsimp only
  rw [hcur]
  dsimp only
  unfold appendRowAt
  rw [hget]
  dsimp only
  rw [hcur]

/-- A non-pipe line starting with `domain name` opens the fixed 3-row, 2-column
domain table (lines 341-357). -/
theorem stepCore_domain {st : FmtState} {line : Str}
    (h1 : line ≠ [])
    (h2 : (containsSub sSECTION2 (pyUpper line) && !st.insideSection2) = false)
    (h3 : matchesSectionHdr line = false)
    (hp : '|' ∉ line)
    (hdm : List.isPrefixOf sDomainLow (pyLower line) = true) :
    stepCore st line =
      openTableAt { closeTable st with inSupp := false }
        [[sDomainName, domainValue line], [[], []], [[], []]] 2 := by
  unfold stepCore
  rw [if_neg h1, if_neg (by simp [h2]), if_neg (by simp [h3]), if_neg hp, if_pos hdm]

/-- In supporting-details mode, a non-pipe, non-keyword, non-heading line
matching the label pattern becomes a bullet with a bold label (lines 407-415). -/
theorem stepCore_label {st : FmtState} {line lab rest : Str}
    (h1 : line ≠ [])
    (h2 : (containsSub sSECTION2 (pyUpper line) && !st.insideSection2) = false)
    (h3 : matchesSectionHdr line = false)
    (hp : '|' ∉ line)
    (hdm : List.isPrefixOf sDomainLow (pyLower line) = false)
    (hrb : List.isPrefixOf sRubricLow (pyLower line) = false)
    (hmn : List.isPrefixOf sMentorLow (pyLower line) = false)
    (hhd : findHeading line = none)
    (hsup : st.inSupp = true)
    (hlm : labelMatch line = some (lab, rest)) :
    stepCore st line = addBlock st (Block.bullet (some lab) rest) := by
  unfold stepCore
  rw [if_neg h1, if_neg (by simp [h2]), if_neg (by simp [h3]), if_neg hp,
    if_neg (by simp [hdm]), if_neg (by simp [hrb]), if_neg (by simp [hmn]), hhd]
  dsimp only
  rw [if_pos hsup, hlm]

/-! Claim theorems. -/

/-- C7: the home route answers HTTP 200 with the JSON body
message = Lesson Planner API is running, and the API key is configured solely
from the environment variable OPENAI_API_KEY at module initialisation; request
handling never rewrites the module state holding it. -/
theorem c7_home_and_key :
    home = Response.json 200 [(("message").data, ("Lesson Planner API is running").data)] ∧
    (∀ env, (initModule env).apiKey = lookupStr env (("OPENAI_API_KEY").data)) ∧
    (∀ (ms : ModuleState) (ctx : RequestCtx), (generate_lesson_plan ms ctx).1 = ms) :=
  ⟨rfl, fun _ => rfl, gen_fst⟩

/-- C5 counterexample: the module registers a third route, OPTIONS /generate,
which is neither the home route nor the POST generate route, so the claim that
exactly two routes exist is false. -/
theorem c5_counterexample :
    (⟨sOPTIONS, sGenPath⟩ : Route) ∈ routes ∧
    (⟨sOPTIONS, sGenPath⟩ : Route) ≠ ⟨sGET, sRoot⟩ ∧
    (⟨sOPTIONS, sGenPath⟩ : Route) ≠ ⟨sPOST, sGenPath⟩ := by
  refine ⟨?_, ?_, ?_⟩ <;> decide

/-- C5 amended: the service registers exactly three routes over two paths:
GET / (home), OPTIONS /generate (CORS preflight) and POST /generate. -/
theorem c5_amended :
    routes = [⟨sGET, sRoot⟩, ⟨sOPTIONS, sGenPath⟩, ⟨sPOST, sGenPath⟩] ∧
    routes.length = 3 ∧
    ∀ r ∈ routes, r.path = sRoot ∨ r.path = sGenPath := by
  refine ⟨rfl, rfl, ?_⟩
  decide

theorem c5_amended_witness :
    (⟨sGET, sRoot⟩ : Route).path = sRoot ∨ (⟨sGET, sRoot⟩ : Route).path = sGenPath :=
  c5_amended.2.2 ⟨sGET, sRoot⟩ (by decide)

/-- C3 counterexample: a request with no uploaded file is answered with an
explicit HTTP 400 validation error, not with the blanket 500, so error
handling does not consist solely of the generic 500 handler. -/
theorem c3_counterexample :
    (generate_lesson_plan ⟨none⟩ ⟨⟨none, []⟩, [], fun _ _ => Except.error []⟩).2 =
      Response.json 400 [(sErrorKey, sNoFileMsg)] ∧ (400 : Nat) ≠ 500 :=
  ⟨rfl, by decide⟩

/-- C3 amended: the handler's responses fall into exactly four shapes: a 400
for a missing file, a 400 for empty extracted text, a 500 carrying the
exception string of a failed model call, or the successful document
download. -/
theorem c3_amended (ms : ModuleState) (ctx : RequestCtx) :
    (generate_lesson_plan ms ctx).2 = Response.json 400 [(sErrorKey, sNoFileMsg)] ∨
    (generate_lesson_plan ms ctx).2 = Response.json 400 [(sErrorKey, sNoTextMsg)] ∨
    (∃ e, (generate_lesson_plan ms ctx).2 = Response.json 500 [(sErrorKey, e)]) ∨
    (∃ bs, (generate_lesson_plan ms ctx).2 = Response.docx sDlName bs) := by
  cases hf : ctx.req.file with
  | none => exact Or.inl (gen_snd_nofile hf)
  | some f =>
    by_cases ht : extract_text_from_file f = []
    · exact Or.inr (Or.inl (gen_snd_notext hf ht))
    · cases ho : ctx.oracle ms.apiKey
        (userPrompt ctx.req.form ctx.timestamp (extract_text_from_file f)) with
      | error e => exact Or.inr (Or.inr (Or.inl ⟨e, gen_snd_err hf ht ho⟩))
      | ok c => exact Or.inr (Or.inr (Or.inr ⟨_, gen_snd_ok hf ht ho⟩))

/-- C6: the server keeps no state across requests: handling any sequence of
requests leaves the module state unchanged, and the i-th response equals the
response computed from the i-th request context alone against the initial
module state. -/
theorem c6_stateless (ms : ModuleState) (ctxs : List RequestCtx) :
    (runServer ms ctxs).1 = ms ∧
    (runServer ms ctxs).2 = ctxs.map (fun c => (generate_lesson_plan ms c).2) := by
  induction ctxs with
  | nil => exact ⟨rfl, rfl⟩
  | cons c rest ih =>
    simp only [runServer, List.map_cons]
    rw [gen_fst ms c]
    exact ⟨ih.1, by rw [ih.2]⟩

/-- C2: a POST /generate request with an uploaded file whose extracted text is
non-empty and whose model call returns normally is answered with the generated
document as an attachment download named BAE_Lesson_Plan.docx, never with a
JSON error. -/
theorem c2_success_docx (ms : ModuleState) (ctx : RequestCtx) (f : UploadedFile)
    (c : Option Str) (hf : ctx.req.file = some f)
    (ht : extract_text_from_file f ≠ [])
    (ho : ctx.oracle ms.apiKey
      (userPrompt ctx.req.form ctx.timestamp (extract_text_from_file f)) = Except.ok c) :
    (generate_lesson_plan ms ctx).2 =
      Response.docx sDlName
        (buildDoc ctx.timestamp (formGet ctx.req.form sRatingKey sGood) (c.getD [])) ∧
    ∀ s body, (generate_lesson_plan ms ctx).2 ≠ Response.json s body := by
  have h := gen_snd_ok hf ht ho
  refine ⟨h, ?_⟩
  intro s body heq
  rw [h] at heq
  cases heq

theorem c2_witness :
    (generate_lesson_plan ⟨none⟩ ctxW).2 =
      Response.docx sDlName (buildDoc ctxW.timestamp sGood (("SECTION 1\nplan").data)) :=
  (c2_success_docx ⟨none⟩ ctxW pdfFileW (some (("SECTION 1\nplan").data))
    rfl (by decide) rfl).1

/-- C9: missing form fields never fail a request: each absent info field
defaults to N/A, an absent target_rating defaults to Good before the prompt is
built, and a valid upload with an entirely empty form still yields a
document. -/
theorem c9_missing_fields (form : List (Str × Str)) (ts text : Str) :
    (∀ key df, lookupStr form key = none → formGet form key df = df) ∧
    (lookupStr form sTeacherKey = none → lookupStr form sLessonNumKey = none →
     lookupStr form sLessonDurKey = none → lookupStr form sProfileKey = none →
     lookupStr form sProblemsKey = none → lookupStr form sRatingKey = none →
      userPrompt form ts text =
        pfTeacher ++ sNA ++ pfLessonNum ++ sNA ++ pfLessonDur ++ sNA ++
        pfProfile ++ sNA ++ pfProblems ++ sNA ++ pfRating ++ sGood ++
        pfTimestamp ++ ts ++ pfContent ++ text ++ pfNL) ∧
    (∀ (ms : ModuleState) (f : UploadedFile) (o : Oracle) (c : Option Str),
      extract_text_from_file f ≠ [] →
      o ms.apiKey (userPrompt form ts (extract_text_from_file f)) = Except.ok c →
      ∃ bs, (generate_lesson_plan ms ⟨⟨some f, form⟩, ts, o⟩).2 =
        Response.docx sDlName bs) := by
  refine ⟨?_, ?_, ?_⟩
  · intro key df h
    unfold formGet
    rw [h]
    rfl
  · intro h1 h2 h3 h4 h5 h6
    unfold userPrompt formGet
    rw [h1, h2, h3, h4, h5, h6]
    rfl
  · intro ms f o c ht ho
    exact ⟨_, gen_snd_ok rfl ht ho⟩

theorem c9_witness :
    formGet [] sTeacherKey sNA = sNA ∧
    userPrompt [] (("2025-01-01 10:00").data) (("text").data) =
      pfTeacher ++ sNA ++ pfLessonNum ++ sNA ++ pfLessonDur ++ sNA ++
      pfProfile ++ sNA ++ pfProblems ++ sNA ++ pfRating ++ sGood ++
      pfTimestamp ++ (("2025-01-01 10:00").data) ++ pfContent ++ (("text").data) ++ pfNL ∧
    ∃ bs, (generate_lesson_plan ⟨none⟩ ⟨⟨some pdfFileW, []⟩, (("2025-01-01 10:00").data), oracleW⟩).2 =
      Response.docx sDlName bs :=
  ⟨(c9_missing_fields [] (("2025-01-01 10:00").data) (("text").data)).1 sTeacherKey sNA rfl,
   (c9_missing_fields [] (("2025-01-01 10:00").data) (("text").data)).2.1 rfl rfl rfl rfl rfl rfl,
   (c9_missing_fields [] (("2025-01-01 10:00").data) (("text").data)).2.2 ⟨none⟩ pdfFileW oracleW
     (some (("SECTION 1\nplan").data)) (by decide) rfl⟩

/-- C1 counterexample: a Word document with extractable content yields the
empty string from the extractor and the handler answers 400 without any model
call, so text extraction does not succeed for all four announced formats. -/
theorem c1_counterexample :
    extract_text_from_file wordFileX = [] ∧
    (generate_lesson_plan ⟨none⟩ ctxWordX).2 = Response.json 400 [(sErrorKey, sNoTextMsg)] := by
  constructor
  · decide
  · decide

/-- C1 amended: only PDF uploads are extracted: a file whose lowercased name
does not end in .pdf yields empty text and a 400 error; a .pdf file has its
pages' text joined and stripped, and when non-empty that text is embedded in
the prompt forwarded to the model endpoint, whose normal reply produces the
document. -/
theorem c1_amended :
    (∀ f : UploadedFile, endsWithStr pdfSuffix (pyLower f.filename) = false →
      extract_text_from_file f = [] ∧
      ∀ (ms : ModuleState) (ctx : RequestCtx), ctx.req.file = some f →
        (generate_lesson_plan ms ctx).2 = Response.json 400 [(sErrorKey, sNoTextMsg)]) ∧
    (∀ f : UploadedFile, endsWithStr pdfSuffix (pyLower f.filename) = true →
      extract_text_from_file f = pyStrip (joinNL (f.pages.map (fun p => p.getD [])))) ∧
    (∀ (ms : ModuleState) (ctx : RequestCtx) (f : UploadedFile) (c : Option Str),
      ctx.req.file = some f → extract_text_from_file f ≠ [] →
      List.IsInfix (extract_text_from_file f)
        (userPrompt ctx.req.form ctx.timestamp (extract_text_from_file f)) ∧
      (ctx.oracle ms.apiKey
          (userPrompt ctx.req.form ctx.timestamp (extract_text_from_file f)) = Except.ok c →
        (generate_lesson_plan ms ctx).2 =
          Response.docx sDlName
            (buildDoc ctx.timestamp (formGet ctx.req.form sRatingKey sGood) (c.getD [])))) := by
  refine ⟨?_, ?_, ?_⟩
  · intro f hf
    have he : extract_text_from_file f = [] := by
      simp [extract_text_from_file, hf]
    exact ⟨he, fun ms ctx hfile => gen_snd_notext hfile he⟩
  · intro f hf
    simp [extract_text_from_file, hf]
  · intro ms ctx f c hfile ht
    constructor
    · exact ⟨pfTeacher ++ formGet ctx.req.form sTeacherKey sNA ++
        pfLessonNum ++ formGet ctx.req.form sLessonNumKey sNA ++
        pfLessonDur ++ formGet ctx.req.form sLessonDurKey sNA ++
        pfProfile ++ formGet ctx.req.form sProfileKey sNA ++
        pfProblems ++ formGet ctx.req.form sProblemsKey sNA ++
        pfRating ++ formGet ctx.req.form sRatingKey sGood ++
        pfTimestamp ++ ctx.timestamp ++ pfContent, pfNL, by
          simp only [userPrompt, List.append_assoc]⟩
    · intro ho
      exact gen_snd_ok hfile ht ho

theorem c1_amended_witness :
    extract_text_from_file xlsFileW = [] ∧
    extract_text_from_file pdfFileW =
      pyStrip (joinNL (pdfFileW.pages.map (fun p => p.getD []))) ∧
    List.IsInfix (extract_text_from_file pdfFileW)
      (userPrompt [] ctxW.timestamp (extract_text_from_file pdfFileW)) :=
  ⟨(c1_amended.1 xlsFileW (by decide)).1,
   c1_amended.2.1 pdfFileW (by decide),
   (c1_amended.2.2 ⟨none⟩ ctxW pdfFileW (some (("SECTION 1\nplan").data))
     rfl (by decide)).1⟩

/-- C4: the formatter scans the model output line by line and dispatches each
non-blank line on string patterns: a pipe line with no open table becomes the
header row of a new table split on the pipe character; a pipe line with an
open table is appended to it as a row; a pipe-free line starting with
Domain Name opens the fixed 3-row, 2-column domain table; and in
supporting-details mode a line matching the label pattern becomes a bullet
item carrying its bold label. -/
theorem c4_line_dispatch (st : FmtState) (line : Str)
    (h1 : line ≠ [])
    (h2 : (containsSub sSECTION2 (pyUpper line) && !st.insideSection2) = false)
    (h3 : matchesSectionHdr line = false) :
    ('|' ∈ line → st.cur = none →
      (stepCore st line).blocks =
        st.blocks ++ [Block.table [(splitOnChar '|' line).map pyStrip]] ∧
      (stepCore st line).cur = some st.blocks.length ∧
      (stepCore st line).curCols = ((splitOnChar '|' line).map pyStrip).length) ∧
    ('|' ∈ line → ∀ i rows, st.cur = some i →
      st.blocks[i]? = some (Block.table rows) →
      (stepCore st line).blocks =
        st.blocks.set i
          (Block.table (rows ++ [fitRow ((splitOnChar '|' line).map pyStrip) st.curCols]))) ∧
    ('|' ∉ line → List.isPrefixOf sDomainLow (pyLower line) = true →
      (stepCore st line).blocks =
        st.blocks ++ [Block.table [[sDomainName, domainValue line], [[], []], [[], []]]] ∧
      (stepCore st line).cur = some st.blocks.length ∧
      (stepCore st line).curCols = 2) ∧
    ('|' ∉ line → List.isPrefixOf sDomainLow (pyLower line) = false →
      List.isPrefixOf sRubricLow (pyLower line) = false →
      List.isPrefixOf sMentorLow (pyLower line) = false →
      findHeading line = none → st.inSupp = true →
      ∀ lab rest, labelMatch line = some (lab, rest) →
        (stepCore st line).blocks = st.blocks ++ [Block.bullet (some lab) rest]) := by
  refine ⟨?_, ?_, ?_, ?_⟩
  · intro hp hcur
    rw [stepCore_pipe_new h1 h2 h3 hp hcur]
    exact ⟨rfl, rfl, rfl⟩
  · intro hp i rows hcur hget
    rw [stepCore_pipe_append h1 h2 h3 hp hcur hget]
  · intro hp hdm
    rw [stepCore_domain h1 h2 h3 hp hdm]
    exact ⟨rfl, rfl, rfl⟩
  · intro hp hdm hrb hmn hhd hsup lab rest hlm
    rw [stepCore_label h1 h2 h3 hp hdm hrb hmn hhd hsup hlm]
    rfl

theorem c4_witness :
    (stepCore emptyFmt (("Stage | Timing").data)).blocks =
      emptyFmt.blocks ++
        [Block.table [(splitOnChar '|' (("Stage | Timing").data)).map pyStrip]] ∧
    (stepCore emptyFmt (("Stage | Timing").data)).cur = some emptyFmt.blocks.length ∧
    (stepCore emptyFmt (("Stage | Timing").data)).curCols =
      ((splitOnChar '|' (("Stage | Timing").data)).map pyStrip).length :=
  (c4_line_dispatch emptyFmt (("Stage | Timing").data)
    (by decide) (by decide) (by decide)).1 (by decide) rfl

/-- C8: rows appended to an open pipe table always have exactly the header
row's cell count: the table invariant holds for the initial document state and
is preserved by every formatter step, and on the append branch the fitted row
has the header's length, right-padded with empty cells when the split is
short and truncated when it is long. -/
theorem c8_row_width :
    (∀ ts tr, TableInv ⟨initBlocks ts tr, none, 0, false, false⟩) ∧
    (∀ (st : FmtState) (raw : Str), TableInv st → TableInv (stepLine st raw)) ∧
    (∀ (st : FmtState) (line : Str) (i : Nat) (rows : List (List Str)) (hd : List Str)
        (tl : List (List Str)),
      TableInv st → line ≠ [] →
      (containsSub sSECTION2 (pyUpper line) && !st.insideSection2) = false →
      matchesSectionHdr line = false → '|' ∈ line →
      st.cur = some i → st.blocks[i]? = some (Block.table rows) → rows = hd :: tl →
      ∃ fitted,
        (stepCore st line).blocks = st.blocks.set i (Block.table (rows ++ [fitted])) ∧
        fitted.length = hd.length ∧
        (((splitOnChar '|' line).map pyStrip).length ≤ hd.length →
          fitted = (splitOnChar '|' line).map pyStrip ++
            List.replicate (hd.length - ((splitOnChar '|' line).map pyStrip).length) []) ∧
        (hd.length < ((splitOnChar '|' line).map pyStrip).length →
          fitted = ((splitOnChar '|' line).map pyStrip).take hd.length)) := by
  refine ⟨?_, ?_, ?_⟩
  · intro ts tr
    exact tableInv_of_cur_none rfl
  · intro st raw h
    exact tableInv_stepCore h (pyStrip raw)
  · intro st line i rows hd tl hInv h1 h2 h3 hp hcur hget hrows
    have hcc : st.curCols = hd.length := by
      obtain ⟨rows2, hget2, hne, hlen⟩ := hInv i hcur
      have he : rows2 = rows := by
        rw [hget2] at hget
        injection hget with e
        injection e
      subst he
      exact (hlen hd (by rw [hrows]; exact List.mem_cons_self _ _)).symm
    refine ⟨fitRow ((splitOnChar '|' line).map pyStrip) st.curCols, ?_, ?_, ?_, ?_⟩
    · rw [stepCore_pipe_append h1 h2 h3 hp hcur hget]
    · rw [fitRow_length]
      exact hcc
    · intro hle
      rw [hcc]
      exact fitRow_of_le _ _ hle
    · intro hgt
      rw [hcc]
      exact fitRow_of_gt _ _ hgt

theorem c8_w_inv : TableInv tableStateW := by
  intro i hi
  have h0 : (0 : Nat) = i := by injection hi
  subst h0
  exact ⟨[hdW], rfl, by decide, by decide⟩

theorem c8_witness :
    ∃ fitted,
      (stepCore tableStateW lineW).blocks =
        tableStateW.blocks.set 0 (Block.table ([hdW] ++ [fitted])) ∧
      fitted.length = hdW.length ∧
      (((splitOnChar '|' lineW).map pyStrip).length ≤ hdW.length →
        fitted = (splitOnChar '|' lineW).map pyStrip ++
          List.replicate (hdW.length - ((splitOnChar '|' lineW).map pyStrip).length) []) ∧
      (hdW.length < ((splitOnChar '|' lineW).map pyStrip).length →
        fitted = ((splitOnChar '|' lineW).map pyStrip).take hdW.length) :=
  c8_row_width.2.2 tableStateW lineW 0 [hdW] hdW [] c8_w_inv
    (by decide) (by decide) (by decide) (by decide) rfl rfl rfl

/-- C10: every asterisk is removed from the model reply before the line loop
starts, and the loop maps asterisk-free text to blocks whose every paragraph,
heading, bullet and table cell is asterisk-free; consequently the whole
generated document body is asterisk-free whenever the timestamp and the
target rating are. -/
theorem c10_no_asterisks :
    (∀ content, '*' ∉ removeAllChar '*' content) ∧
    (∀ content, '*' ∉ processModelOutput content) ∧
    (∀ (lt : Str) (st : FmtState), '*' ∉ lt → (∀ b ∈ st.blocks, blockStarFree b) →
      ∀ b ∈ (List.foldl stepLine st (splitOnChar '\n' lt)).blocks, blockStarFree b) ∧
    (∀ ts tr content, '*' ∉ ts → '*' ∉ tr →
      ∀ b ∈ buildDoc ts tr content, blockStarFree b) := by
  have hfold : ∀ (lt : Str) (st : FmtState), '*' ∉ lt → (∀ b ∈ st.blocks, blockStarFree b) →
      ∀ b ∈ (List.foldl stepLine st (splitOnChar '\n' lt)).blocks, blockStarFree b := by
    intro lt st hlt hst
    exact starFree_foldl _ st (fun l2 hl2 hm => hlt (mem_splitOnChar hl2 hm)) hst
  refine ⟨starFree_removeAllChar, starFree_processModelOutput, hfold, ?_⟩
  intro ts tr content hts htr
  unfold buildDoc formatText
  apply hfold
  · exact starFree_processModelOutput content
  · intro b hb
    simp only [initBlocks, List.mem_cons, List.not_mem_nil, or_false] at hb
    rcases hb with rfl | rfl | rfl | rfl
    · show ('*' : Char) ∉ sTitle
      decide
    · show ('*' : Char) ∉ sGeneratedOn ++ ts
      intro hm
      rcases List.mem_append.1 hm with hm1 | hm1
      · exact absurd hm1 (by decide)
      · exact hts hm1
    · show ('*' : Char) ∉ sTargetRating ++ tr
      intro hm
      rcases List.mem_append.1 hm with hm1 | hm1
      · exact absurd hm1 (by decide)
      · exact htr hm1
    · exact List.not_mem_nil _

theorem c10_witness :
    ('*' ∉ removeAllChar '*' (("a*b*").data)) ∧
    ∀ b ∈ buildDoc (("2025-01-01 10:00").data) sGood (("Head\nA | B\n*x* y").data),
      blockStarFree b :=
  ⟨c10_no_asterisks.1 (("a*b*").data),
   c10_no_asterisks.2.2.2 (("2025-01-01 10:00").data) sGood (("Head\nA | B\n*x* y").data)
     (by decide) (by decide)⟩
